import Mathlib

/-!
# Gemini Micro-Cap Trader — verification of the portfolio ledger

Shallow embedding of the portfolio ledger and valuation logic of
`src/App.tsx` and the advisory-gateway response handling of the
`GeminiTraderService` (src/unnamed/part_000), with JS numbers modelled
as rationals (`ℚ`) and React state updates modelled as explicit state
passing.
-/

namespace Trader

/-- Structure `Holding` from `types.ts`: one position in the portfolio. -/
structure Holding where
  ticker : String
  shares : ℚ
  avgCost : ℚ
  currentPrice : ℚ
deriving DecidableEq, Repr

/-- One history entry of `Portfolio.history` in `types.ts`:
`{timestamp, totalValue, isPrediction?}`. The optional JS flag is a
`Bool` defaulting to `false` (absent and `false` are indistinguishable
to the code's `!h.isPrediction` filters). -/
structure Snapshot where
  timestamp : String
  totalValue : ℚ
  isPrediction : Bool := false
deriving DecidableEq, Repr

/-- Trade direction, the `'BUY' | 'SELL'` literal type. -/
inductive TradeType where
  | buy
  | sell
deriving DecidableEq, Repr

/-- Structure `Transaction` from `types.ts`. -/
structure Transaction where
  id : String
  type : TradeType
  ticker : String
  shares : ℚ
  price : ℚ
  timestamp : String
deriving DecidableEq, Repr

/-- The mutable App state that `executeTrade` touches: the `portfolio`
state variable (`cash`, `holdings`, `history`) together with the
`transactions` state variable. -/
structure TraderState where
  cash : ℚ
  holdings : List Holding
  history : List Snapshot
  transactions : List Transaction
deriving DecidableEq, Repr

/-- The reduction `holdings.reduce((sum, h) => sum + (h.shares * h.currentPrice), 0)`,
the valuation sum used by `executeTrade` and the `totalValue` display. -/
def sumHoldingsValue (hs : List Holding) : ℚ :=
  hs.foldl (fun acc h => acc + h.shares * h.currentPrice) 0

/-- The `totalValue` computation in `App.tsx`: `portfolio.cash + Σ shares×currentPrice`. -/
def totalValue (s : TraderState) : ℚ :=
  s.cash + sumHoldingsValue s.holdings

/-- Observable outcome of one `executeTrade` call.  The JS function
returns `undefined` in all cases; the behavioural distinction is whether
the React state setters ran (`success` carries the new state), an
`alert` fired with no state change (`alert` carries the message and the
unchanged state), or the `shares <= 0` guard silently returned
(`ignored`, unchanged state). -/
inductive TradeOutcome where
  | success (s : TraderState)
  | alert (msg : String) (s : TraderState)
  | ignored (s : TraderState)
deriving DecidableEq, Repr

/-- The alert message of an outcome, when one fired. -/
def TradeOutcome.alertMsg? : TradeOutcome → Option String
  | .success _ => none
  | .alert m _ => some m
  | .ignored _ => none

/-- Fallback holding for the (unreachable) out-of-range index read;
`findIndex`-produced indices are always in range. -/
def dummyHolding : Holding := ⟨"", 0, 0, 0⟩

/-- Function `executeTrade` from `App.tsx` (lines 168–208).  `ts` is the
`new Date().toLocaleTimeString()` snapshot timestamp, `txId` the random
transaction id, `txTs` the `new Date().toISOString()` transaction
timestamp; all three are opaque environment inputs.  The React updater
closures are evaluated against the same `s` (single-threaded model). -/
def executeTrade (type : TradeType) (ticker : String) (price shares : ℚ)
    (ts txId txTs : String) (s : TraderState) : TradeOutcome :=
  if shares ≤ 0 then .ignored s
  else
    let cost := price * shares
    let idx := s.holdings.findIdx? (fun h => h.ticker == ticker)
    match type with
    | .buy =>
      if s.cash < cost then .alert "Insufficient cash!" s
      else
        let newHoldings :=
          match idx with
          | some i =>
            let h := s.holdings.getD i dummyHolding
            let totalShares := h.shares + shares
            let totalCost := h.shares * h.avgCost + shares * price
            s.holdings.set i
              { h with shares := totalShares, avgCost := totalCost / totalShares,
                       currentPrice := price }
          | none =>
            s.holdings ++ [⟨ticker, shares, price, price⟩]
        .success
          { cash := s.cash - cost
            holdings := newHoldings
            history := s.history.filter (fun h => !h.isPrediction) ++
              [⟨ts, (s.cash - cost) + sumHoldingsValue newHoldings, false⟩]
            transactions := ⟨txId, .buy, ticker, shares, price, txTs⟩ :: s.transactions }
    | .sell =>
      match idx with
      | none => .alert "Not enough shares!" s
      | some i =>
        let h := s.holdings.getD i dummyHolding
        if h.shares < shares then .alert "Not enough shares!" s
        else
          let h₂ := { h with shares := h.shares - shares }
          let newHoldings :=
            if h₂.shares = 0 then s.holdings.eraseIdx i
            else s.holdings.set i h₂
          .success
            { cash := s.cash + cost
              holdings := newHoldings
              history := s.history.filter (fun h => !h.isPrediction) ++
                [⟨ts, (s.cash + cost) + sumHoldingsValue newHoldings, false⟩]
              transactions := ⟨txId, .sell, ticker, shares, price, txTs⟩ :: s.transactions }

/-- A `{title, uri}` provenance record extracted from grounding metadata. -/
structure Source where
  title : String
  uri : String
deriving DecidableEq, Repr

/-- One `{timestamp, totalValue}` prediction data point
(`PredictionResponse.predictions` element in `types.ts`). -/
structure PredPoint where
  timestamp : String
  totalValue : ℚ
deriving DecidableEq, Repr

/-- Structure `PredictionResponse` from `types.ts`. -/
structure PredictionResponse where
  predictions : List PredPoint
  rationale : String
  sources : List Source
deriving DecidableEq, Repr

/-- Structure `Stock` from `types.ts` (the `sentiment` enum and display strings are
carried opaquely). -/
structure Stock where
  ticker : String
  name : String
  price : ℚ
  changePercent : ℚ
  marketCap : String
  reasoning : String
  sentiment : String
  lastUpdated : String
deriving DecidableEq, Repr

/-- Structure `MarketIndex` from `types.ts`. -/
structure MarketIndex where
  name : String
  value : String
  change : String
  changePercent : String
  isPositive : Bool
deriving DecidableEq, Repr

/-- Structure `DiscoveryResponse` from `types.ts`. -/
structure DiscoveryResponse where
  stocks : List Stock
  sources : List Source
deriving DecidableEq, Repr

/-- Structure `MarketOverviewResponse` from `types.ts`. -/
structure MarketOverviewResponse where
  indices : List MarketIndex
  sources : List Source
deriving DecidableEq, Repr

/-- The schema-declared payload of `analyzeStock` before sources are
merged in (`AnalysisResponse` minus `sources`). -/
structure AnalysisPayload where
  recommendation : String
  ticker : String
  currentPrice : ℚ
  confidence : ℚ
  analysis : String
deriving DecidableEq, Repr

/-- Structure `AnalysisResponse` from `types.ts`. -/
structure AnalysisResponse where
  recommendation : String
  ticker : String
  currentPrice : ℚ
  confidence : ℚ
  analysis : String
  sources : List Source
deriving DecidableEq, Repr

/-!
Response handling of `GeminiTraderService` (src/unnamed/part_000).  Each
method awaits `generateContent`, extracts `sources`, then runs
`JSON.parse(response.text.trim())` inside `try/catch`.  The network call
and JSON text are the boundary; we model a method's post-response
handling as a function of the extracted `sources` and the parse result
(`some payload` when `JSON.parse` succeeds against the declared shape,
`none` when it throws).
-/

/-- Method `searchStock` response handling (part_000 lines 60–67): parse
failure throws `Failed to find data for ticker: ...`. -/
def searchStock (ticker : String) (sources : List Source)
    (parsed : Option Stock) : Except String (Stock × List Source) :=
  match parsed with
  | some st => .ok (st, sources)
  | none => .error ("Failed to find data for ticker: " ++ ticker)

/-- Method `predictPortfolioValue` response handling (part_000 lines 103–111):
parse failure falls back to an empty predictions list with an
explanatory rationale. -/
def predictPortfolioValue (sources : List Source)
    (parsed : Option (List PredPoint × String)) : PredictionResponse :=
  match parsed with
  | some (preds, rat) => ⟨preds, rat, sources⟩
  | none => ⟨[], "Unable to generate forecast at this time.", sources⟩

/-- Method `getMarketOverview` response handling (part_000 lines 145–152):
parse failure falls back to empty indices. -/
def getMarketOverview (sources : List Source)
    (parsed : Option (List MarketIndex)) : MarketOverviewResponse :=
  match parsed with
  | some idxs => ⟨idxs, sources⟩
  | none => ⟨[], sources⟩

/-- Method `discoverMicroCaps` response handling (part_000 lines 190–197):
parse failure falls back to empty stocks. -/
def discoverMicroCaps (sources : List Source)
    (parsed : Option (List Stock)) : DiscoveryResponse :=
  match parsed with
  | some sts => ⟨sts, sources⟩
  | none => ⟨[], sources⟩

/-- Method `analyzeStock` response handling (part_000 lines 225–231): parse
failure throws `Failed to analyze stock data`. -/
def analyzeStock (sources : List Source)
    (parsed : Option AnalysisPayload) : Except String AnalysisResponse :=
  match parsed with
  | some p => .ok ⟨p.recommendation, p.ticker, p.currentPrice, p.confidence, p.analysis, sources⟩
  | none => .error "Failed to analyze stock data"

/-- The map `result.predictions.map` with `isPrediction: true` in
`fetchPrediction`: a prediction point becomes a flagged snapshot. -/
def tagPrediction (p : PredPoint) : Snapshot :=
  ⟨p.timestamp, p.totalValue, true⟩

/-- The history effect of `fetchPrediction` in `App.tsx` (lines
150–166).  The awaited service call either resolves with a
`PredictionResponse` (`.ok`) — then the updater replaces the history's
prediction entries with the tagged result — or rejects (`.error`) —
then the `catch` only logs and the history is left untouched.  The
`rationale`/`sources` state setters are display-only and omitted. -/
def fetchPrediction (hist : List Snapshot)
    (svc : Except String PredictionResponse) : List Snapshot :=
  match svc with
  | .ok result =>
    hist.filter (fun h => !h.isPrediction) ++ result.predictions.map tagPrediction
  | .error _ => hist

/-! ## Claim theorems -/

/-- C1: for every successful trade (BUY or SELL), the snapshot appended
to the history records `totalValue` equal to the post-trade cash plus
the post-trade sum over holdings of `shares × currentPrice`. -/
theorem executeTrade_snapshot_conservation
    (type : TradeType) (ticker ts txId txTs : String) (price shares : ℚ)
    (s s' : TraderState)
    (hs : executeTrade type ticker price shares ts txId txTs s = .success s') :
    s'.history.getLast? = some ⟨ts, s'.cash + sumHoldingsValue s'.holdings, false⟩ := by
  simp only [executeTrade] at hs
  split at hs
  · exact TradeOutcome.noConfusion hs
  · split at hs
    · split at hs
      · exact TradeOutcome.noConfusion hs
      · rw [TradeOutcome.success.injEq] at hs
        subst hs
        exact List.getLast?_concat _
    · split at hs
      · exact TradeOutcome.noConfusion hs
      · split at hs
        · exact TradeOutcome.noConfusion hs
        · rw [TradeOutcome.success.injEq] at hs
          subst hs
          exact List.getLast?_concat _

/-- C1 witness: a concrete successful BUY satisfying the theorem. -/
theorem executeTrade_snapshot_conservation_witness :
    executeTrade .buy "ABC" 7 10 "t1" "id1" "ts1"
        ⟨100, [⟨"ABC", 10, 5, 5⟩], [⟨"t0", 100, false⟩], []⟩
      = .success ⟨30, [⟨"ABC", 20, 6, 7⟩],
          [⟨"t0", 100, false⟩, ⟨"t1", 170, false⟩],
          [⟨"id1", .buy, "ABC", 10, 7, "ts1"⟩]⟩ ∧
    (⟨30, [⟨"ABC", 20, 6, 7⟩],
       [⟨"t0", 100, false⟩, ⟨"t1", 170, false⟩],
       [⟨"id1", .buy, "ABC", 10, 7, "ts1"⟩]⟩ : TraderState).history.getLast?
      = some ⟨"t1", (30 : ℚ) + sumHoldingsValue [⟨"ABC", 20, 6, 7⟩], false⟩ := by
  have hrun : executeTrade .buy "ABC" 7 10 "t1" "id1" "ts1"
      ⟨100, [⟨"ABC", 10, 5, 5⟩], [⟨"t0", 100, false⟩], []⟩
    = .success ⟨30, [⟨"ABC", 20, 6, 7⟩],
        [⟨"t0", 100, false⟩, ⟨"t1", 170, false⟩],
        [⟨"id1", .buy, "ABC", 10, 7, "ts1"⟩]⟩ := by
    norm_num [executeTrade, sumHoldingsValue, List.findIdx?, dummyHolding]
  exact ⟨hrun, executeTrade_snapshot_conservation .buy "ABC" "t1" "id1" "ts1" 7 10
    ⟨100, [⟨"ABC", 10, 5, 5⟩], [⟨"t0", 100, false⟩], []⟩ _ hrun⟩

/-- C2: a successful BUY of a held ticker merges with weighted-average
cost and marks `currentPrice := price`; an unheld ticker is inserted
with `avgCost = price`; in both cases `price*shares` is deducted from
cash; and concretely, buying 10 shares on top of a 10-share position at
avgCost 5 at price 7 yields avgCost 6 and 20 shares. -/
theorem executeTrade_buy_cost_basis
    (ticker ts txId txTs : String) (price shares : ℚ) (s s' : TraderState)
    (hs : executeTrade .buy ticker price shares ts txId txTs s = .success s') :
    s'.cash = s.cash - price * shares ∧
    (∀ i, s.holdings.findIdx? (fun h => h.ticker == ticker) = some i →
      s'.holdings = s.holdings.set i
        { s.holdings.getD i dummyHolding with
          shares := (s.holdings.getD i dummyHolding).shares + shares
          avgCost := ((s.holdings.getD i dummyHolding).shares *
              (s.holdings.getD i dummyHolding).avgCost + shares * price) /
            ((s.holdings.getD i dummyHolding).shares + shares)
          currentPrice := price }) ∧
    (s.holdings.findIdx? (fun h => h.ticker == ticker) = none →
      s'.holdings = s.holdings ++ [⟨ticker, shares, price, price⟩]) ∧
    (∃ s₂, executeTrade .buy "ABC" 7 10 "ct" "cid" "cts"
        ⟨100, [⟨"ABC", 10, 5, 5⟩], [], []⟩ = .success s₂ ∧
      s₂.holdings = [⟨"ABC", 20, 6, 7⟩]) := by
  refine ⟨?_, ?_, ?_, ?_⟩
  · simp only [executeTrade] at hs
    split at hs
    · exact TradeOutcome.noConfusion hs
    · split at hs
      · exact TradeOutcome.noConfusion hs
      · rw [TradeOutcome.success.injEq] at hs
        subst hs
        rfl
  · intro i hi
    simp only [executeTrade] at hs
    split at hs
    · exact TradeOutcome.noConfusion hs
    · split at hs
      · exact TradeOutcome.noConfusion hs
      · rw [TradeOutcome.success.injEq] at hs
        subst hs
        simp only [hi]
  · intro hnone
    simp only [executeTrade] at hs
    split at hs
    · exact TradeOutcome.noConfusion hs
    · split at hs
      · exact TradeOutcome.noConfusion hs
      · rw [TradeOutcome.success.injEq] at hs
        subst hs
        simp only [hnone]
  · exact ⟨⟨30, [⟨"ABC", 20, 6, 7⟩], [⟨"ct", 170, false⟩],
        [⟨"cid", .buy, "ABC", 10, 7, "cts"⟩]⟩,
      by norm_num [executeTrade, sumHoldingsValue, List.findIdx?, dummyHolding], rfl⟩

/-- C2 witness: the merge case at a concrete input. -/
theorem executeTrade_buy_cost_basis_witness :
    ∃ s' : TraderState,
      executeTrade .buy "ABC" 7 10 "t1" "id1" "ts1"
          ⟨100, [⟨"ABC", 10, 5, 5⟩], [], []⟩ = .success s' ∧
      s'.cash = 100 - 7 * 10 ∧
      s'.holdings = [⟨"ABC", 20, 6, 7⟩] := by
  have hrun : executeTrade .buy "ABC" 7 10 "t1" "id1" "ts1"
      ⟨100, [⟨"ABC", 10, 5, 5⟩], [], []⟩
    = .success ⟨30, [⟨"ABC", 20, 6, 7⟩], [⟨"t1", 170, false⟩],
        [⟨"id1", .buy, "ABC", 10, 7, "ts1"⟩]⟩ := by
    norm_num [executeTrade, sumHoldingsValue, List.findIdx?, dummyHolding]
  exact ⟨_, hrun,
    (executeTrade_buy_cost_basis "ABC" "t1" "id1" "ts1" 7 10 _ _ hrun).1, rfl⟩

/-- C3: a BUY with `cash < price*shares` fires the insufficient-cash
alert and returns the state entirely unchanged (cash, holdings, history
and transaction log). -/
theorem executeTrade_buy_insufficient_funds
    (ticker ts txId txTs : String) (price shares : ℚ) (s : TraderState)
    (hpos : 0 < shares) (hfunds : s.cash < price * shares) :
    executeTrade .buy ticker price shares ts txId txTs s
      = .alert "Insufficient cash!" s := by
  simp only [executeTrade, not_le.mpr hpos, if_false, if_pos hfunds]

/-- C3 witness: a concrete underfunded BUY is rejected unchanged. -/
theorem executeTrade_buy_insufficient_funds_witness :
    (0 : ℚ) < 10 ∧ (100 : ℚ) < 20 * 10 ∧
    executeTrade .buy "ABC" 20 10 "t1" "id1" "ts1"
        ⟨100, [⟨"ABC", 10, 5, 5⟩], [⟨"t0", 100, false⟩], []⟩
      = .alert "Insufficient cash!"
          ⟨100, [⟨"ABC", 10, 5, 5⟩], [⟨"t0", 100, false⟩], []⟩ :=
  ⟨by norm_num, by norm_num,
    executeTrade_buy_insufficient_funds "ABC" "t1" "id1" "ts1" 20 10
      ⟨100, [⟨"ABC", 10, 5, 5⟩], [⟨"t0", 100, false⟩], []⟩
      (by norm_num) (by norm_num)⟩

/-- C4: every successful trade rebuilds the history as the filtered
actual snapshots (all `isPrediction` entries removed, the actual ones
kept in value and order) plus exactly one appended actual snapshot, so
the resulting history contains no prediction entry. -/
theorem executeTrade_clears_prediction_suffix
    (type : TradeType) (ticker ts txId txTs : String) (price shares : ℚ)
    (s s' : TraderState)
    (hs : executeTrade type ticker price shares ts txId txTs s = .success s') :
    s'.history = s.history.filter (fun h => !h.isPrediction) ++
      [⟨ts, s'.cash + sumHoldingsValue s'.holdings, false⟩] ∧
    ∀ sn ∈ s'.history, sn.isPrediction = false := by
  have hmem : ∀ t : List Snapshot, ∀ v : ℚ,
      (∀ sn ∈ s.history.filter (fun h => !h.isPrediction) ++ [(⟨ts, v, false⟩ : Snapshot)],
        sn.isPrediction = false) := by
    intro _t v sn hsn
    rcases List.mem_append.mp hsn with h | h
    · simpa using (List.mem_filter.mp h).2
    · rw [List.mem_singleton.mp h]
  simp only [executeTrade] at hs
  split at hs
  · exact TradeOutcome.noConfusion hs
  · split at hs
    · split at hs
      · exact TradeOutcome.noConfusion hs
      · rw [TradeOutcome.success.injEq] at hs
        subst hs
        exact ⟨rfl, hmem [] _⟩
    · split at hs
      · exact TradeOutcome.noConfusion hs
      · split at hs
        · exact TradeOutcome.noConfusion hs
        · rw [TradeOutcome.success.injEq] at hs
          subst hs
          exact ⟨rfl, hmem [] _⟩

/-- C4 witness: a trade on a history carrying a prediction suffix. -/
theorem executeTrade_clears_prediction_suffix_witness :
    ∃ s' : TraderState,
      executeTrade .buy "NEW" 3 2 "t2" "id2" "ts2"
          ⟨100, [], [⟨"t0", 100, false⟩, ⟨"p1", 105, true⟩, ⟨"p2", 110, true⟩], []⟩
        = .success s' ∧
      s'.history = [⟨"t0", 100, false⟩] ++
        [⟨"t2", s'.cash + sumHoldingsValue s'.holdings, false⟩] ∧
      ∀ sn ∈ s'.history, sn.isPrediction = false := by
  have hrun : executeTrade .buy "NEW" 3 2 "t2" "id2" "ts2"
      ⟨100, [], [⟨"t0", 100, false⟩, ⟨"p1", 105, true⟩, ⟨"p2", 110, true⟩], []⟩
    = .success ⟨94, [⟨"NEW", 2, 3, 3⟩],
        [⟨"t0", 100, false⟩, ⟨"t2", 100, false⟩],
        [⟨"id2", .buy, "NEW", 2, 3, "ts2"⟩]⟩ := by
    norm_num [executeTrade, sumHoldingsValue, List.findIdx?, dummyHolding]
  have h := executeTrade_clears_prediction_suffix .buy "NEW" "t2" "id2" "ts2" 3 2
    _ _ hrun
  exact ⟨_, hrun, h.1, h.2⟩

/-- Tagged prediction snapshots are all dropped by the
`!h.isPrediction` filter. -/
lemma filter_not_isPrediction_map_tagPrediction (ps : List PredPoint) :
    (ps.map tagPrediction).filter (fun h => !h.isPrediction) = [] := by
  induction ps with
  | nil => rfl
  | cons p ps ih => simp [tagPrediction, ih]

/-- The `!h.isPrediction` filter is idempotent and absorbs a freshly
tagged prediction suffix. -/
lemma filter_not_isPrediction_replaced (hist : List Snapshot) (ps : List PredPoint) :
    (hist.filter (fun h => !h.isPrediction) ++ ps.map tagPrediction).filter
        (fun h => !h.isPrediction)
      = hist.filter (fun h => !h.isPrediction) := by
  rw [List.filter_append, filter_not_isPrediction_map_tagPrediction,
    List.filter_filter]
  simp

/-- C5: folding a second prediction response replaces the first
suffix instead of appending to it — the result is the actual
(non-prediction) snapshots of the original history, unchanged in value
and order, followed by exactly the second response's points tagged
`isPrediction`, so the length is the actual count plus the second
response's point count (7 + 7 never accumulates to 14). -/
theorem fetchPrediction_replace_not_append
    (hist : List Snapshot) (r₁ r₂ : PredictionResponse) :
    fetchPrediction (fetchPrediction hist (.ok r₁)) (.ok r₂)
      = hist.filter (fun h => !h.isPrediction) ++ r₂.predictions.map tagPrediction ∧
    (fetchPrediction (fetchPrediction hist (.ok r₁)) (.ok r₂)).length
      = (hist.filter (fun h => !h.isPrediction)).length + r₂.predictions.length ∧
    (fetchPrediction (fetchPrediction hist (.ok r₁)) (.ok r₂)).take
        (hist.filter (fun h => !h.isPrediction)).length
      = hist.filter (fun h => !h.isPrediction) := by
  have hrep : fetchPrediction (fetchPrediction hist (.ok r₁)) (.ok r₂)
      = hist.filter (fun h => !h.isPrediction) ++ r₂.predictions.map tagPrediction := by
    simp only [fetchPrediction]
    rw [filter_not_isPrediction_replaced]
  refine ⟨hrep, ?_, ?_⟩
  · rw [hrep, List.length_append, List.length_map]
  · rw [hrep, List.take_left]

/-- C6 counterexample: the two SELL failure modes are NOT reported with
distinct errors — a SELL of an unheld ticker and an over-sized SELL of a
held ticker fire the same single `Not enough shares!` alert, so no
distinct `NoPosition` error exists. -/
theorem sell_errors_not_distinct_counterexample :
    (executeTrade .sell "BBB" 1 1 "t" "i" "u"
        ⟨100, [⟨"AAA", 5, 10, 10⟩], [], []⟩).alertMsg?
      = (executeTrade .sell "AAA" 1 9 "t" "i" "u"
        ⟨100, [⟨"AAA", 5, 10, 10⟩], [], []⟩).alertMsg? ∧
    executeTrade .sell "BBB" 1 1 "t" "i" "u" ⟨100, [⟨"AAA", 5, 10, 10⟩], [], []⟩
      = .alert "Not enough shares!" ⟨100, [⟨"AAA", 5, 10, 10⟩], [], []⟩ ∧
    executeTrade .sell "AAA" 1 9 "t" "i" "u" ⟨100, [⟨"AAA", 5, 10, 10⟩], [], []⟩
      = .alert "Not enough shares!" ⟨100, [⟨"AAA", 5, 10, 10⟩], [], []⟩ := by
  refine ⟨?_, ?_, ?_⟩ <;>
    norm_num +decide [executeTrade, sumHoldingsValue, List.findIdx?, List.getD,
      TradeOutcome.alertMsg?, dummyHolding]

/-- C6 (amended): every SELL that is invalid — whether because the
ticker is not held or because the requested shares exceed the held
shares — fails with the single `Not enough shares!` alert (the code does
not distinguish the two cases) and leaves the state unchanged. -/
theorem executeTrade_sell_single_error
    (ticker ts txId txTs : String) (price shares : ℚ) (s : TraderState)
    (hpos : 0 < shares)
    (hfail : s.holdings.findIdx? (fun h => h.ticker == ticker) = none ∨
      ∃ i, s.holdings.findIdx? (fun h => h.ticker == ticker) = some i ∧
        (s.holdings.getD i dummyHolding).shares < shares) :
    executeTrade .sell ticker price shares ts txId txTs s
      = .alert "Not enough shares!" s := by
  simp only [executeTrade, not_le.mpr hpos, if_false]
  rcases hfail with hnone | ⟨i, hi, hlt⟩
  · simp only [hnone]
  · simp only [hi]
    rw [if_pos hlt]

/-- C6 witness: a held-but-oversized SELL rejected unchanged. -/
theorem executeTrade_sell_single_error_witness :
    (0 : ℚ) < 9 ∧
    executeTrade .sell "AAA" 1 9 "t" "i" "u" ⟨100, [⟨"AAA", 5, 10, 10⟩], [], []⟩
      = .alert "Not enough shares!" ⟨100, [⟨"AAA", 5, 10, 10⟩], [], []⟩ :=
  ⟨by norm_num,
    executeTrade_sell_single_error "AAA" "t" "i" "u" 1 9
      ⟨100, [⟨"AAA", 5, 10, 10⟩], [], []⟩ (by norm_num)
      (Or.inr ⟨0, by decide, by norm_num [List.getD, dummyHolding]⟩)⟩

/-- C7 counterexample: after a full close, a further SELL of the ticker
does not fail with a distinct `NoPosition` error — it fires the very
same `Not enough shares!` alert used for the insufficient-shares
failure of a held position. -/
theorem sell_after_full_close_counterexample :
    ∃ s₂ : TraderState,
      executeTrade .sell "AAA" 12 5 "t1" "i1" "u1"
          ⟨100, [⟨"AAA", 5, 10, 10⟩], [], []⟩ = .success s₂ ∧
      s₂.holdings = [] ∧
      (executeTrade .sell "AAA" 12 1 "t2" "i2" "u2" s₂).alertMsg?
        = some "Not enough shares!" ∧
      (executeTrade .sell "AAA" 1 9 "t" "i" "u"
          ⟨100, [⟨"AAA", 5, 10, 10⟩], [], []⟩).alertMsg?
        = some "Not enough shares!" := by
  refine ⟨⟨160, [], [⟨"t1", 160, false⟩], [⟨"i1", .sell, "AAA", 5, 12, "u1"⟩]⟩,
    ?_, rfl, ?_, ?_⟩ <;>
    norm_num +decide [executeTrade, sumHoldingsValue, List.findIdx?, List.getD,
      TradeOutcome.alertMsg?, dummyHolding]

/-- C7 (amended): a successful SELL credits `price*shares` to cash and
decrements the held shares; when the resulting share count is exactly 0
the holding is removed entirely (no zero-share record remains at its
index), otherwise only its share count is updated; and after a concrete
full close a subsequent SELL of that ticker fails with the code's
single `Not enough shares!` alert, state unchanged. -/
theorem executeTrade_sell_updates
    (ticker ts txId txTs : String) (price shares : ℚ) (s s' : TraderState) (i : ℕ)
    (hidx : s.holdings.findIdx? (fun h => h.ticker == ticker) = some i)
    (hs : executeTrade .sell ticker price shares ts txId txTs s = .success s') :
    s'.cash = s.cash + price * shares ∧
    ((s.holdings.getD i dummyHolding).shares - shares = 0 →
      s'.holdings = s.holdings.eraseIdx i) ∧
    ((s.holdings.getD i dummyHolding).shares - shares ≠ 0 →
      s'.holdings = s.holdings.set i
        { s.holdings.getD i dummyHolding with
          shares := (s.holdings.getD i dummyHolding).shares - shares }) ∧
    (∃ s₂ : TraderState,
      executeTrade .sell "AAA" 12 5 "ct" "ci" "cu"
          ⟨100, [⟨"AAA", 5, 10, 10⟩], [], []⟩ = .success s₂ ∧
      s₂.holdings = [] ∧
      executeTrade .sell "AAA" 12 1 "ct2" "ci2" "cu2" s₂
        = .alert "Not enough shares!" s₂) := by
  have hconc : ∃ s₂ : TraderState,
      executeTrade .sell "AAA" 12 5 "ct" "ci" "cu"
          ⟨100, [⟨"AAA", 5, 10, 10⟩], [], []⟩ = .success s₂ ∧
      s₂.holdings = [] ∧
      executeTrade .sell "AAA" 12 1 "ct2" "ci2" "cu2" s₂
        = .alert "Not enough shares!" s₂ := by
    refine ⟨⟨160, [], [⟨"ct", 160, false⟩], [⟨"ci", .sell, "AAA", 5, 12, "cu"⟩]⟩,
      ?_, rfl, ?_⟩ <;>
      norm_num +decide [executeTrade, sumHoldingsValue, List.findIdx?, List.getD,
        dummyHolding]
  simp only [executeTrade] at hs
  split at hs
  · exact TradeOutcome.noConfusion hs
  · split at hs
    · next heq =>
      rw [hidx] at heq
      exact Option.noConfusion heq
    · next j heq =>
      rw [hidx] at heq
      cases heq
      split at hs
      · exact TradeOutcome.noConfusion hs
      · split at hs
        · next hz =>
          rw [TradeOutcome.success.injEq] at hs
          subst hs
          exact ⟨rfl, fun _ => rfl, fun hne => absurd hz hne, hconc⟩
        · next hz =>
          rw [TradeOutcome.success.injEq] at hs
          subst hs
          exact ⟨rfl, fun h0 => absurd h0 hz, fun _ => rfl, hconc⟩

/-- C7 witness: a concrete full close (`shares - shares = 0` path). -/
theorem executeTrade_sell_updates_witness :
    ∃ s' : TraderState,
      executeTrade .sell "AAA" 12 5 "t1" "i1" "u1"
          ⟨100, [⟨"AAA", 5, 10, 10⟩], [], []⟩ = .success s' ∧
      s'.cash = 100 + 12 * 5 ∧
      s'.holdings = ([⟨"AAA", 5, 10, 10⟩] : List Holding).eraseIdx 0 := by
  have hrun : executeTrade .sell "AAA" 12 5 "t1" "i1" "u1"
      ⟨100, [⟨"AAA", 5, 10, 10⟩], [], []⟩
    = .success ⟨160, [], [⟨"t1", 160, false⟩], [⟨"i1", .sell, "AAA", 5, 12, "u1"⟩]⟩ := by
    norm_num [executeTrade, sumHoldingsValue, List.findIdx?, List.getD, dummyHolding]
  have h := executeTrade_sell_updates "AAA" "t1" "i1" "u1" 12 5 _ _ 0
    (by decide) hrun
  exact ⟨_, hrun, h.1, h.2.1 (by norm_num [List.getD, dummyHolding])⟩

/-- C8: when the response cannot be parsed into the declared shape
(`JSON.parse` throws), discovery, market overview and prediction recover
with empty/default payloads, while ticker search and deep analysis
surface the failure as a raised error with no fallback payload. -/
theorem gateway_malformed_response_policy (ticker : String) (sources : List Source) :
    discoverMicroCaps sources none = ⟨[], sources⟩ ∧
    getMarketOverview sources none = ⟨[], sources⟩ ∧
    predictPortfolioValue sources none
      = ⟨[], "Unable to generate forecast at this time.", sources⟩ ∧
    searchStock ticker sources none
      = .error ("Failed to find data for ticker: " ++ ticker) ∧
    analyzeStock sources none = .error "Failed to analyze stock data" :=
  ⟨rfl, rfl, rfl, rfl, rfl⟩

/-- C9 counterexample: a prediction request that fails by rejecting
(the awaited call throws, e.g. a network failure) is only logged by
`fetchPrediction`'s catch — the history keeps its stale prediction
snapshot instead of having the suffix cleared. -/
theorem fetchPrediction_thrown_keeps_stale_counterexample :
    fetchPrediction [⟨"t0", 100, false⟩, ⟨"p1", 105, true⟩]
        (.error "network failure")
      = [⟨"t0", 100, false⟩, ⟨"p1", 105, true⟩] ∧
    (fetchPrediction [⟨"t0", 100, false⟩, ⟨"p1", 105, true⟩]
        (.error "network failure")).filter (fun h => h.isPrediction)
      = [⟨"p1", 105, true⟩] :=
  ⟨rfl, rfl⟩

/-- C9 (amended): a prediction request whose response arrives but fails
to parse yields the empty predictions list with the explanatory
rationale, and folding that result clears the history's prediction
suffix to empty; a request that fails by throwing before a response is
folded leaves the history — stale prediction suffix included —
untouched. -/
theorem fetchPrediction_parse_failure_clears
    (hist : List Snapshot) (sources : List Source) :
    (predictPortfolioValue sources none).predictions = [] ∧
    (predictPortfolioValue sources none).rationale
      = "Unable to generate forecast at this time." ∧
    fetchPrediction hist (.ok (predictPortfolioValue sources none))
      = hist.filter (fun h => !h.isPrediction) ∧
    (∀ e : String, fetchPrediction hist (.error e) = hist) := by
  refine ⟨rfl, rfl, ?_, fun _ => rfl⟩
  simp [fetchPrediction, predictPortfolioValue]

/-- Characterization of a successful SELL at the found index: cash is
credited, the holding is erased or share-decremented according to the
zero test, and the appended snapshot uses the post-trade holdings. -/
lemma sell_success_characterization
    (ticker ts txId txTs : String) (price shares : ℚ) (s s' : TraderState) (i : ℕ)
    (hidx : s.holdings.findIdx? (fun h => h.ticker == ticker) = some i)
    (hs : executeTrade .sell ticker price shares ts txId txTs s = .success s') :
    s'.cash = s.cash + price * shares ∧
    s'.holdings = (if (s.holdings.getD i dummyHolding).shares - shares = 0
      then s.holdings.eraseIdx i
      else s.holdings.set i
        { s.holdings.getD i dummyHolding with
          shares := (s.holdings.getD i dummyHolding).shares - shares }) ∧
    s'.history = s.history.filter (fun h => !h.isPrediction) ++
      [⟨ts, (s.cash + price * shares) + sumHoldingsValue s'.holdings, false⟩] := by
  simp only [executeTrade] at hs
  split at hs
  · exact TradeOutcome.noConfusion hs
  · split at hs
    · next heq =>
      rw [hidx] at heq
      exact Option.noConfusion heq
    · next j heq =>
      rw [hidx] at heq
      cases heq
      split at hs
      · exact TradeOutcome.noConfusion hs
      · split at hs
        · next hz =>
          rw [TradeOutcome.success.injEq] at hs
          subst hs
          exact ⟨rfl, (if_pos hz).symm, rfl⟩
        · next hz =>
          rw [TradeOutcome.success.injEq] at hs
          subst hs
          exact ⟨rfl, (if_neg hz).symm, rfl⟩

/-- C10: a successful partial SELL (`0 < shares < held.shares`) leaves
the remaining holding's `avgCost` and `currentPrice` unchanged, and the
snapshot it appends values the remaining shares at the pre-trade
`currentPrice` mark (the sell price only enters through the cash
credit). -/
theorem executeTrade_partial_sell_frame
    (ticker ts txId txTs : String) (price shares : ℚ) (s s' : TraderState) (i : ℕ)
    (hidx : s.holdings.findIdx? (fun h => h.ticker == ticker) = some i)
    (hbelow : shares < (s.holdings.getD i dummyHolding).shares)
    (hs : executeTrade .sell ticker price shares ts txId txTs s = .success s') :
    s'.holdings = s.holdings.set i
      { s.holdings.getD i dummyHolding with
        shares := (s.holdings.getD i dummyHolding).shares - shares } ∧
    (s'.holdings.getD i dummyHolding).avgCost
      = (s.holdings.getD i dummyHolding).avgCost ∧
    (s'.holdings.getD i dummyHolding).currentPrice
      = (s.holdings.getD i dummyHolding).currentPrice ∧
    s'.history.getLast? = some ⟨ts,
      (s.cash + price * shares) + sumHoldingsValue s'.holdings, false⟩ := by
  have hlen : i < s.holdings.length :=
    (List.findIdx?_eq_some_iff_findIdx_eq.mp hidx).1
  have hnz : (s.holdings.getD i dummyHolding).shares - shares ≠ 0 :=
    sub_ne_zero.mpr (ne_of_gt hbelow)
  obtain ⟨hcash, hhold, hhist⟩ :=
    sell_success_characterization ticker ts txId txTs price shares s s' i hidx hs
  rw [if_neg hnz] at hhold
  have hgd : (s'.holdings).getD i dummyHolding
      = { s.holdings.getD i dummyHolding with
          shares := (s.holdings.getD i dummyHolding).shares - shares } := by
    rw [hhold, List.getD_eq_getElem?_getD, List.getElem?_set_self hlen]
    rfl
  refine ⟨hhold, by rw [hgd], by rw [hgd], ?_⟩
  rw [hhist]
  exact List.getLast?_concat _

/-- C10 witness: selling 2 of 5 held shares keeps avgCost and the
pre-trade mark on the remainder. -/
theorem executeTrade_partial_sell_frame_witness :
    ∃ s' : TraderState,
      executeTrade .sell "AAA" 12 2 "t1" "i1" "u1"
          ⟨100, [⟨"AAA", 5, 10, 10⟩], [], []⟩ = .success s' ∧
      s'.holdings = [⟨"AAA", 3, 10, 10⟩] ∧
      (s'.holdings.getD 0 dummyHolding).avgCost = 10 ∧
      (s'.holdings.getD 0 dummyHolding).currentPrice = 10 := by
  have hrun : executeTrade .sell "AAA" 12 2 "t1" "i1" "u1"
      ⟨100, [⟨"AAA", 5, 10, 10⟩], [], []⟩
    = .success ⟨124, [⟨"AAA", 3, 10, 10⟩], [⟨"t1", 154, false⟩],
        [⟨"i1", .sell, "AAA", 2, 12, "u1"⟩]⟩ := by
    norm_num +decide [executeTrade, sumHoldingsValue, List.findIdx?, List.getD,
      dummyHolding]
  have h := executeTrade_partial_sell_frame "AAA" "t1" "i1" "u1" 12 2 _ _ 0
    (by decide) (by norm_num [List.getD, dummyHolding]) hrun
  exact ⟨_, hrun, rfl, h.2.1.trans rfl, h.2.2.1.trans rfl⟩

end Trader
